import Mathlib

/-!
Verification development for the audio-app repository's real-time audio
feature-extraction and classification pipeline.

The definitions below are a shallow embedding of:
  - ClassificationService (server/services/classification.service.js):
    extractFeatures, ruleBasedClassification, calculateStd;
  - classifyAudio and the Meyda analyzer callback of the AudioAnalysis
    client component;
  - AudioContextProvider.initializeAudioContext (shared-source binding);
  - the drawSpectrogram / stopAnalysis render loop.
JavaScript numbers are embedded as exact rationals; values that may be
absent (possibly-undefined feature fields) are embedded as Option, with
the or-zero defaulting of the source made explicit via Option.getD.
The Meyda feature-extraction library is not part of the repository, so
per-frame extraction enters as an oracle argument; the per-frame RMS,
energy and spectral-flatness computations are modelled from the spec
where needed (marked as such in their doc comments).
-/

/-- Mean of a list of rationals, as computed by the reduce-then-divide idiom
used throughout the source (an empty list yields 0, since division by zero
is 0 here). -/
def calculateMean (values : List ℚ) : ℚ :=
  values.sum / values.length

/-- Population variance computed inside ClassificationService.calculateStd:
the sum of squared deviations from the mean, divided by the length. -/
def calculateVariance (values : List ℚ) : ℚ :=
  (values.map fun val => (val - calculateMean values) ^ 2).sum / values.length

/-- ClassificationService.calculateStd: the square root of the population
variance of the given values. -/
noncomputable def calculateStd (values : List ℚ) : ℝ :=
  Real.sqrt (calculateVariance values)

/-- Priority-ordered first-match decision list of
ClassificationService.ruleBasedClassification. The source sorts its four
rules by their priority fields 1..4 (they are already listed in that order,
and the sort is stable), applies the first rule whose check passes, and
falls back to unknown with confidence 0.5. Generic over a linear ordered
field so that it serves both the rational statistics level and the
real-valued mfccStd produced by calculateStd. -/
def ruleDecision {α : Type} [LinearOrderedField α]
    (spectralCentroid rms zcr mfccStd : α) : String × α :=
  if rms < 1 / 100 then ("silence", 9 / 10)
  else if spectralCentroid > 1000 ∧ spectralCentroid < 3000 ∧ zcr > 1 / 10 ∧ mfccStd > 5 then
    ("speech", 8 / 10)
  else if spectralCentroid > 2000 ∧ rms > 1 / 10 ∧ mfccStd > 3 ∧ mfccStd < 8 then
    ("music", 75 / 100)
  else if mfccStd < 3 ∨ (rms < 5 / 100 ∧ spectralCentroid < 1000) then
    ("noise", 7 / 10)
  else ("unknown", 1 / 2)

/-- Iteration offsets of the frame loop in
ClassificationService.extractFeatures, which advances i from 0 by hopSize
while i is strictly below audioBuffer.length - bufferSize. The fuel
argument is a structural bound on the remaining iterations; callers pass
the buffer length, which always suffices when the hop is positive. -/
def frameStartsFuel (L B H : ℕ) : ℕ → ℕ → List ℕ
  | 0, _ => []
  | fuel + 1, i => if i + B < L then i :: frameStartsFuel L B H fuel (i + H) else []

/-- Start offsets of the frames processed by extractFeatures on a buffer of
length L with frame length B and hop H (B = 512 and H = 256 in the source). -/
def frameStarts (L B H : ℕ) : List ℕ :=
  frameStartsFuel L B H L 0

/-- Definition following the claim's words, for comparison with the loop in
the source: the number of emitted frames is floor((L - bufferSize) /
hopSize) + 1, and 0 when L is below bufferSize. -/
def claimedFrameCount (L B H : ℕ) : ℕ :=
  if L < B then 0 else (L - B) / H + 1

/-- Per-frame feature record returned by Meyda.extract inside
extractFeatures. Every field is optional because the source guards each of
them: features.mfcc may be absent, and each scalar is defaulted with the
JavaScript or-zero idiom before being accumulated. -/
structure MeydaFeatures where
  mfcc : Option (List ℚ)
  spectralCentroid : Option ℚ
  rms : Option ℚ
  zcr : Option ℚ

/-- Aggregated feature record returned by
ClassificationService.extractFeatures. -/
structure ExtractedFeatures where
  mfcc : List ℚ
  spectralCentroid : ℚ
  rms : ℚ
  zcr : ℚ
  duration : ℚ

/-- Accumulation step for the mfccSum array of extractFeatures: a 13-slot
zero-filled accumulator receives coefficient-wise additions from each
frame whose mfcc field is present (Meyda produces the 13 coefficients the
accumulator holds), and is left untouched otherwise. -/
def mfccAccum (acc : List ℚ) (f : MeydaFeatures) : List ℚ :=
  match f.mfcc with
  | some v => List.zipWith (· + ·) acc v
  | none => acc

/-- ClassificationService.extractFeatures: slices the buffer into
hop-spaced 512-sample frames, extracts the Meyda features of each frame
(the Meyda library is outside the repository, so it enters as the oracle
argument), sums the per-frame values with or-zero defaulting, and divides
every sum by the frame count. -/
def extractFeatures (meyda : List ℚ → MeydaFeatures) (audioBuffer : List ℚ)
    (sampleRate : ℚ) : ExtractedFeatures :=
  let bufferSize := 512
  let hopSize := 256
  let starts := frameStarts audioBuffer.length bufferSize hopSize
  let feats := starts.map fun i => meyda ((audioBuffer.drop i).take bufferSize)
  let count : ℚ := starts.length
  { mfcc := (feats.foldl mfccAccum (List.replicate 13 0)).map fun v => v / count
    spectralCentroid := (feats.map fun f => f.spectralCentroid.getD 0).sum / count
    rms := (feats.map fun f => f.rms.getD 0).sum / count
    zcr := (feats.map fun f => f.zcr.getD 0).sum / count
    duration := audioBuffer.length / sampleRate }

/-- ClassificationService.ruleBasedClassification: computes mfccStd as
calculateStd of the aggregated mfcc vector and dispatches on the priority
rule list. -/
noncomputable def ruleBasedClassification (features : ExtractedFeatures) : String × ℝ :=
  ruleDecision (features.spectralCentroid : ℝ) (features.rms : ℝ) (features.zcr : ℝ)
    (calculateStd features.mfcc)

/-- Definition following the spec's words, for comparison with the source:
the mfccStdDev statistic is the standard deviation, taken across the
frames of the window, of each frame's mean MFCC value. -/
noncomputable def specMfccStdDev (meyda : List ℚ → MeydaFeatures)
    (audioBuffer : List ℚ) : ℝ :=
  calculateStd ((frameStarts audioBuffer.length 512 256).map
    fun i => calculateMean (((meyda ((audioBuffer.drop i).take 512)).mfcc).getD []))

/-- Constant 13-coefficient MFCC vector (twelve zeros and one 26) used as a
concrete window for the mfccStdDev comparison. -/
def c3Vec : List ℚ := List.replicate 12 0 ++ [26]

/-- Constant Meyda oracle: every frame reports c3Vec as its MFCC vector. -/
def c3Meyda : List ℚ → MeydaFeatures := fun _ =>
  { mfcc := some c3Vec, spectralCentroid := some 0, rms := some 0, zcr := some 0 }

/-- Concrete 1024-sample buffer, which the frame loop cuts into two
overlapping frames (offsets 0 and 256). -/
def c3Buffer : List ℚ := List.replicate 1024 0

/-- Total version of a Meyda feature record: every missing field is
replaced by the zero value that the or-zero defaulting of the source
produces for it (a missing mfcc contributes the zero vector to the
accumulator). -/
def fillMissing (f : MeydaFeatures) : MeydaFeatures :=
  { mfcc := some (f.mfcc.getD (List.replicate 13 0))
    spectralCentroid := some (f.spectralCentroid.getD 0)
    rms := some (f.rms.getD 0)
    zcr := some (f.zcr.getD 0) }

/-- Modelled from the spec: the per-frame RMS (root-mean-square amplitude)
computed by the Meyda library, which is not part of this repository (only
its caller extractFeatures is): the square root of the mean of the squared
samples. -/
noncomputable def frameRms (frame : List ℚ) : ℝ :=
  Real.sqrt (((frame.map fun x => x * x).sum / frame.length : ℚ))

/-- Modelled from the spec: the per-frame energy computed by the Meyda
library, which is not part of this repository: the sum of squared
samples. -/
def frameEnergy (frame : List ℚ) : ℚ :=
  (frame.map fun x => x * x).sum

/-- Modelled from the spec: the magnitude spectrum of a frame, the
magnitudes of the discrete Fourier transform of the frame in the bins
0 .. length/2. -/
noncomputable def frameSpectrum (frame : List ℚ) : List ℝ :=
  (List.range (frame.length / 2 + 1)).map fun k =>
    Complex.abs (((List.range frame.length).map fun j =>
      ((frame.getD j 0 : ℚ) : ℂ) *
        Complex.exp (-2 * (Real.pi : ℂ) * Complex.I * (j : ℂ) * (k : ℂ) / (frame.length : ℂ))).sum)

/-- Modelled from the spec: spectral flatness of a frame, the geometric
mean of the magnitude spectrum divided by its arithmetic mean, with the
spec's numeric edge case made explicit: an all-zero spectrum must yield 0
rather than a division-by-zero NaN. -/
noncomputable def frameFlatness (frame : List ℚ) : ℝ :=
  let mags := frameSpectrum frame
  let am := mags.sum / mags.length
  if am = 0 then 0 else (mags.prod ^ ((1 : ℝ) / mags.length)) / am

/-- Feature sample delivered to the Meyda analyzer callback in the
AudioAnalysis client component; only the three fields read by classifyAudio
are modelled, each optional and defaulted to 0 by the source's or-zero
idiom. -/
structure StreamSample where
  spectralCentroid : Option ℚ
  spectralFlatness : Option ℚ
  zcr : Option ℚ

/-- Total version of a stream sample: every missing field replaced by the 0
its or-zero defaulting produces. -/
def fillStreamSample (s : StreamSample) : StreamSample :=
  { spectralCentroid := some (s.spectralCentroid.getD 0)
    spectralFlatness := some (s.spectralFlatness.getD 0)
    zcr := some (s.zcr.getD 0) }

/-- Vote accumulation of classifyAudio (AudioAnalysis component): starting
from zero music and speech scores, each of the three binary thresholds on
the window means adds its weight to one of the two hypotheses. -/
def voteScores (samples : List StreamSample) : ℚ × ℚ :=
  let avgSpectralCentroid :=
    (samples.map fun s => s.spectralCentroid.getD 0).sum / samples.length
  let avgSpectralFlatness :=
    (samples.map fun s => s.spectralFlatness.getD 0).sum / samples.length
  let avgZCR := (samples.map fun s => s.zcr.getD 0).sum / samples.length
  let scores : ℚ × ℚ := (0, 0)
  let scores := if avgSpectralCentroid > 2000 then (scores.1 + 2, scores.2)
    else (scores.1, scores.2 + 2)
  let scores := if avgSpectralFlatness > 3 / 10 then (scores.1, scores.2 + 2)
    else (scores.1 + 2, scores.2)
  let scores := if avgZCR > 1 / 10 then (scores.1, scores.2 + 1)
    else (scores.1 + 1, scores.2)
  scores

/-- classifyAudio (AudioAnalysis component): returns none on an empty
window (the source's early return), otherwise the label whose score wins
the comparison, with that score's share of the total as the confidence
percentage. -/
def classifyAudio (samples : List StreamSample) : Option (String × ℚ) :=
  if samples.length = 0 then none
  else
    let musicScore := (voteScores samples).1
    let speechScore := (voteScores samples).2
    let totalScore := musicScore + speechScore
    let musicConfidence := musicScore / totalScore * 100
    let speechConfidence := speechScore / totalScore * 100
    if musicScore > speechScore then some ("Music", musicConfidence)
    else some ("Speech", speechConfidence)

/-- JavaScript slice(-10) on the sample window: the most recent 10
entries. -/
def sliceLast (l : List StreamSample) (n : ℕ) : List StreamSample :=
  l.drop (l.length - n)

/-- One run of the Meyda analyzer callback in AudioAnalysis.startAnalysis:
the new feature sample is pushed, and when the window length reaches 20,
classifyAudio is invoked on the full window and only its last 10 samples
are retained. The second component records the window handed to
classifyAudio when that happened. -/
def analyzerCallback (buf : List StreamSample) (f : StreamSample) :
    List StreamSample × Option (List StreamSample) :=
  let buf' := buf ++ [f]
  if 20 ≤ buf'.length then (sliceLast buf' 10, some buf')
  else (buf', none)

/-- Window contents after the analyzer callback has processed the given
samples in order, starting from the empty window. -/
def runAnalyzer (fs : List StreamSample) : List StreamSample :=
  fs.foldl (fun b f => (analyzerCallback b f).1) []

/-- State of the shared AudioContextProvider (FeatureExtractor.jsx): the
once-created AudioContext and MediaElementSource refs and the
initialization flag. The context and source are represented by the numeric
identifier they were created with. -/
structure ProviderState where
  audioContext : Option ℕ
  sourceNode : Option ℕ
  isInitialized : Bool
  deriving DecidableEq

/-- Outcome of one call to AudioContextProvider.initializeAudioContext:
the guard's early return, the setTimeout deferral while the element is not
ready, a successful creation of the shared tap point, or the catch branch
that swallows a creation failure. -/
inductive InitOutcome
  | earlyReturn
  | deferred
  | bound
  | caughtError
  deriving DecidableEq

/-- AudioContextProvider.initializeAudioContext (FeatureExtractor.jsx):
returns immediately when a context already exists or no audio element is
attached; defers with a setTimeout retry while the element's readyState is
below 2; otherwise creates the AudioContext and the single
MediaElementSource tap point and marks the provider initialized. -/
def initAudioContext (s : ProviderState) (hasAudioRef : Bool)
    (readyState : ℕ) (newId : ℕ) : ProviderState × InitOutcome :=
  if s.audioContext.isSome || !hasAudioRef then (s, .earlyReturn)
  else if readyState < 2 then (s, .deferred)
  else (⟨some newId, some newId, true⟩, .bound)

/-- Render-loop state of drawSpectrogram / stopAnalysis (AudioAnalysis):
whether analysis is flagged active, whether an animation-frame request is
outstanding in animationRef, and how many spectrogram columns have been
painted. -/
structure RenderState where
  isAnalyzing : Bool
  pending : Bool
  paints : ℕ
  deriving DecidableEq

/-- Body of drawSpectrogram when its scheduled animation frame fires:
paints one spectrogram column, then re-requests itself only if isAnalyzing
is still set. -/
def drawSpectrogramTick (s : RenderState) : RenderState :=
  { isAnalyzing := s.isAnalyzing, pending := s.isAnalyzing, paints := s.paints + 1 }

/-- One tick of the display-refresh clock: the outstanding animation-frame
request, if any, fires and runs drawSpectrogramTick; with no outstanding
request the clock tick runs nothing. -/
def fireAnimationFrame (s : RenderState) : RenderState :=
  if s.pending then drawSpectrogramTick s else s

/-- stopAnalysis (AudioAnalysis): cancelAnimationFrame on the outstanding
request and clearing of the analyzing flag; the paint count is
untouched. -/
def stopAnalysisRender (s : RenderState) : RenderState :=
  { isAnalyzing := false, pending := false, paints := s.paints }

/-- Length of the frame loop's iteration list, in closed form: starting at
offset i, the loop runs floor((L - B - i - 1)/H) + 1 times when a full
frame fits strictly before the bound, and not at all otherwise. -/
theorem frameStartsFuel_length (L B H : ℕ) (hH : 0 < H) :
    ∀ fuel i, L ≤ i + fuel →
      (frameStartsFuel L B H fuel i).length =
        if i + B < L then (L - B - i - 1) / H + 1 else 0 := by
  intro fuel
  induction fuel with
  | zero =>
    intro i hi
    rw [frameStartsFuel, if_neg (by omega)]
    rfl
  | succ n ih =>
    intro i hi
    rw [frameStartsFuel]
    by_cases h : i + B < L
    · rw [if_pos h, if_pos h, List.length_cons, ih (i + H) (by omega)]
      by_cases h2 : i + H + B < L
      · rw [if_pos h2]
        have hd : L - B - i - 1 = (L - B - (i + H) - 1) + H := by omega
        rw [hd, Nat.add_div_right _ hH]
      · rw [if_neg h2, Nat.div_eq_of_lt (by omega)]
    · rw [if_neg h, if_neg h]
      rfl

/-- Closed form for the number of frames the extraction loop emits. -/
theorem frameStarts_length (L B H : ℕ) (hH : 0 < H) :
    (frameStarts L B H).length = if B < L then (L - B - 1) / H + 1 else 0 := by
  rw [frameStarts, frameStartsFuel_length L B H hH L 0 (by omega)]
  simp

/-- C1: for every aggregated-statistics input whose rms is at least 0.01
(so the silence rule does not fire) and which satisfies the speech
predicate (spectralCentroid strictly between 1000 and 3000, zcr above 0.1,
mfccStdDev above 5), the rule-based classifier returns the speech label
with confidence 0.8; the statement quantifies over all such statistics,
including every one that also satisfies the lower-priority music or noise
predicates, so the first matching rule in priority order wins. -/
theorem c1_speech_priority (spectralCentroid rms zcr mfccStd : ℚ)
    (hrms : 1 / 100 ≤ rms) (h1 : 1000 < spectralCentroid)
    (h2 : spectralCentroid < 3000) (hz : 1 / 10 < zcr) (hm : 5 < mfccStd) :
    ruleDecision spectralCentroid rms zcr mfccStd = ("speech", 8 / 10) := by
  rw [ruleDecision, if_neg (not_lt.mpr hrms), if_pos ⟨h1, h2, hz, hm⟩]

/-- Witness for C1 at the spec's example point: spectralCentroid 2000,
rms 0.02, zcr 0.2, mfccStdDev 6. -/
theorem c1_speech_priority_witness :
    (1 / 100 : ℚ) ≤ 2 / 100 ∧ (1000 : ℚ) < 2000 ∧ (2000 : ℚ) < 3000 ∧
      (1 / 10 : ℚ) < 2 / 10 ∧ (5 : ℚ) < 6 ∧
      ruleDecision (2000 : ℚ) (2 / 100) (2 / 10) 6 = ("speech", 8 / 10) :=
  ⟨by norm_num, by norm_num, by norm_num, by norm_num, by norm_num,
    c1_speech_priority 2000 (2 / 100) (2 / 10) 6 (by norm_num) (by norm_num)
      (by norm_num) (by norm_num) (by norm_num)⟩

/-- C7: the rule-based classifier is deterministic — two evaluations on
identical aggregated statistics return an identical label and identical
confidence — and for every statistics input with rms below 0.01 it returns
the silence label with confidence 0.9. -/
theorem c7_deterministic_silence :
    (∀ sc₁ rms₁ zcr₁ m₁ sc₂ rms₂ zcr₂ m₂ : ℚ,
      sc₁ = sc₂ → rms₁ = rms₂ → zcr₁ = zcr₂ → m₁ = m₂ →
      ruleDecision sc₁ rms₁ zcr₁ m₁ = ruleDecision sc₂ rms₂ zcr₂ m₂) ∧
    (∀ sc rms zcr m : ℚ, rms < 1 / 100 →
      ruleDecision sc rms zcr m = ("silence", 9 / 10)) := by
  constructor
  · intro sc₁ rms₁ zcr₁ m₁ sc₂ rms₂ zcr₂ m₂ e1 e2 e3 e4
    rw [e1, e2, e3, e4]
  · intro sc rms zcr m h
    rw [ruleDecision, if_pos h]

/-- Witness for C7 at the spec's example: rms 0.005 yields silence with
confidence 0.9. -/
theorem c7_deterministic_silence_witness :
    (5 / 1000 : ℚ) < 1 / 100 ∧
      ruleDecision (500 : ℚ) (5 / 1000) 0 0 = ("silence", 9 / 10) :=
  ⟨by norm_num, c7_deterministic_silence.2 500 (5 / 1000) 0 0 (by norm_num)⟩

/-- C2 counterexample: a buffer of exactly bufferSize samples (L = 512,
bufferSize = 512, hopSize = 256). The loop bound is strict, i from 0 while
i is below L - bufferSize = 0, so no iteration runs and 0 frames are
emitted, while the claimed formula floor((L - bufferSize)/hopSize) + 1
gives 1 because L is not below bufferSize. -/
theorem c2_counterexample :
    (frameStarts 512 512 256).length ≠ claimedFrameCount 512 512 256 := by
  decide

/-- C2 amended: for a positive hop, the extraction loop emits
floor((L - bufferSize - 1)/hopSize) + 1 frames when L is strictly greater
than bufferSize, and 0 frames when L ≤ bufferSize — one frame fewer than
the claimed formula exactly when hopSize divides L - bufferSize. -/
theorem c2_frame_count (L B H : ℕ) (hH : 0 < H) :
    (frameStarts L B H).length = if B < L then (L - B - 1) / H + 1 else 0 :=
  frameStarts_length L B H hH

/-- Witness for C2 amended at L = 1024, B = 512, H = 256: two frames. -/
theorem c2_frame_count_witness :
    0 < 256 ∧ (frameStarts 1024 512 256).length = 2 := by
  refine ⟨by decide, ?_⟩
  rw [c2_frame_count 1024 512 256 (by decide)]
  decide

/-- C4 counterexample: calling the binder on a provider that already holds
a binding (context id 0) while the audio element is present and fully
ready returns the guard's early return with the state unchanged — a silent
no-op, not the exception the claim requires (the only error-shaped outcome
of the source, the swallowed catch branch, is not produced). -/
theorem c4_counterexample :
    initAudioContext ⟨some 0, some 0, true⟩ true 4 1
        = (⟨some 0, some 0, true⟩, InitOutcome.earlyReturn) ∧
      InitOutcome.earlyReturn ≠ InitOutcome.caughtError :=
  ⟨rfl, by decide⟩

/-- C4 amended: binding a source that already has an active binding is a
silent idempotent no-op (the guard returns early and the state is
unchanged) on every such attempt, rather than an exception; binding a
not-yet-bound, ready source creates the single shared tap point, and it is
created exactly once — every later call returns early and leaves it
untouched. -/
theorem c4_bind_idempotent :
    (∀ (s : ProviderState) (hasRef : Bool) (rs newId : ℕ), s.audioContext.isSome →
      initAudioContext s hasRef rs newId = (s, InitOutcome.earlyReturn)) ∧
    (∀ (s : ProviderState) (rs newId : ℕ), s.audioContext = none → 2 ≤ rs →
      initAudioContext s true rs newId
          = (⟨some newId, some newId, true⟩, InitOutcome.bound) ∧
      ∀ (hasRef₂ : Bool) (rs₂ newId₂ : ℕ),
        initAudioContext ⟨some newId, some newId, true⟩ hasRef₂ rs₂ newId₂
          = (⟨some newId, some newId, true⟩, InitOutcome.earlyReturn)) := by
  constructor
  · intro s hasRef rs newId h
    rw [initAudioContext, if_pos (by simp [h])]
  · intro s rs newId hnone hrs
    constructor
    · rw [initAudioContext, if_neg (by simp [hnone]), if_neg (by omega)]
    · intro hasRef₂ rs₂ newId₂
      rw [initAudioContext, if_pos (by simp)]

/-- Witness for C4 amended: a fresh provider with a ready element binds
once with id 7, and a second call is a silent early return. -/
theorem c4_bind_idempotent_witness :
    (ProviderState.mk none none false).audioContext = none ∧ 2 ≤ 4 ∧
      initAudioContext ⟨none, none, false⟩ true 4 7
          = (⟨some 7, some 7, true⟩, InitOutcome.bound) ∧
      initAudioContext ⟨some 7, some 7, true⟩ true 4 8
          = (⟨some 7, some 7, true⟩, InitOutcome.earlyReturn) :=
  ⟨rfl, by decide,
    (c4_bind_idempotent.2 ⟨none, none, false⟩ 4 7 rfl (by decide)).1,
    (c4_bind_idempotent.2 ⟨none, none, false⟩ 4 7 rfl (by decide)).2 true 4 8⟩

/-- Helper: a stopped render state is a fixed point of the frame clock. -/
theorem fireAnimationFrame_stopped (s : RenderState) :
    fireAnimationFrame (stopAnalysisRender s) = stopAnalysisRender s := by
  simp [fireAnimationFrame, stopAnalysisRender]

/-- C9: cancelling the render loop deterministically prevents any further
spectrogram paints — after stopAnalysis, any number of display-refresh
ticks leaves the paint counter unchanged and no animation-frame request
outstanding — and the loop checks the is-still-active flag before each
self-reschedule, so a stopped loop never reschedules itself. -/
theorem c9_cancellation :
    (∀ (s : RenderState) (n : ℕ),
      (fireAnimationFrame^[n] (stopAnalysisRender s)).paints = s.paints ∧
      (fireAnimationFrame^[n] (stopAnalysisRender s)).pending = false) ∧
    (∀ s : RenderState, s.isAnalyzing = false →
      (fireAnimationFrame s).pending = false) := by
  constructor
  · intro s n
    rw [Function.iterate_fixed (fireAnimationFrame_stopped s) n]
    exact ⟨rfl, rfl⟩
  · intro s h
    by_cases hp : s.pending
    · simp [fireAnimationFrame, hp, drawSpectrogramTick, h]
    · simp [fireAnimationFrame, hp]

/-- Witness for C9: a state whose analyzing flag is cleared but whose
request is still outstanding does not reschedule when the tick fires. -/
theorem c9_cancellation_witness :
    (RenderState.mk false true 0).isAnalyzing = false ∧
      (fireAnimationFrame ⟨false, true, 0⟩).pending = false :=
  ⟨rfl, c9_cancellation.2 ⟨false, true, 0⟩ rfl⟩

/-- Helper: starting from a window of at most 19 samples, the analyzer
callback keeps the window at most 19 samples long. -/
theorem runAnalyzer_length_aux :
    ∀ (fs : List StreamSample) (buf : List StreamSample), buf.length ≤ 19 →
      (fs.foldl (fun b f => (analyzerCallback b f).1) buf).length ≤ 19 := by
  intro fs
  induction fs with
  | nil => intro buf h; exact h
  | cons f t ih =>
    intro buf h
    rw [List.foldl_cons]
    apply ih
    simp only [analyzerCallback]
    split_ifs with hlen
    · simp only [sliceLast, List.length_drop]
      omega
    · simp only [List.length_append, List.length_cons, List.length_nil] at hlen ⊢
      omega

/-- C5: the sliding window never exceeds 20 samples over any run; a push
that brings the window to the trigger size 20 hands the full 20-sample
window to classifyAudio and retains exactly the most recent 10 samples
(the oldest 10 are dropped), and every other push only appends the new
sample. -/
theorem c5_sliding_window :
    (∀ fs : List StreamSample, (runAnalyzer fs).length ≤ 20) ∧
    (∀ (buf : List StreamSample) (f : StreamSample), buf.length = 19 →
      analyzerCallback buf f = ((buf ++ [f]).drop 10, some (buf ++ [f])) ∧
      ((buf ++ [f]).drop 10).length = 10) ∧
    (∀ (buf : List StreamSample) (f : StreamSample), buf.length + 1 < 20 →
      analyzerCallback buf f = (buf ++ [f], none)) := by
  refine ⟨?_, ?_, ?_⟩
  · intro fs
    have h := runAnalyzer_length_aux fs [] (by simp)
    rw [runAnalyzer]
    omega
  · intro buf f h
    constructor
    · simp only [analyzerCallback]
      rw [if_pos (by simp [h])]
      simp [sliceLast, h]
    · simp [h]
  · intro buf f h
    simp only [analyzerCallback]
    rw [if_neg (by simp; omega)]

/-- Witness for C5: pushing a 20th sample onto a 19-sample window triggers
classification of the full window and retains its last 10 samples. -/
theorem c5_sliding_window_witness :
    (List.replicate 19 (StreamSample.mk none none none)).length = 19 ∧
      analyzerCallback (List.replicate 19 (StreamSample.mk none none none))
          (StreamSample.mk none none none)
        = ((List.replicate 19 (StreamSample.mk none none none)
              ++ [StreamSample.mk none none none]).drop 10,
           some (List.replicate 19 (StreamSample.mk none none none)
              ++ [StreamSample.mk none none none])) :=
  ⟨by simp,
    (c5_sliding_window.2.1 (List.replicate 19 (StreamSample.mk none none none))
      (StreamSample.mk none none none) (by simp)).1⟩

/-- Helper: classifyAudio on a non-empty window reduces to the comparison
of the two vote totals. -/
theorem classifyAudio_eq (samples : List StreamSample)
    (hne : ¬ samples.length = 0) :
    classifyAudio samples =
      if (voteScores samples).1 > (voteScores samples).2
      then some ("Music",
        (voteScores samples).1 / ((voteScores samples).1 + (voteScores samples).2) * 100)
      else some ("Speech",
        (voteScores samples).2 / ((voteScores samples).1 + (voteScores samples).2) * 100) := by
  rw [classifyAudio, if_neg hne]

/-- Helper: the three binary threshold votes always produce one of six
score pairs, each summing to 5. -/
theorem voteScores_cases (samples : List StreamSample) :
    voteScores samples = (5, 0) ∨ voteScores samples = (4, 1) ∨
    voteScores samples = (3, 2) ∨ voteScores samples = (2, 3) ∨
    voteScores samples = (1, 4) ∨ voteScores samples = (0, 5) := by
  simp only [voteScores]
  split_ifs <;> norm_num

/-- C6: for every non-empty window the two-class streaming classifier
accumulates the weighted votes of the three binary thresholds into music
and speech scores that never tie, returns the hypothesis with the larger
vote total as the label, and reports that winner's share of the total
votes (as a percentage) as the confidence. -/
theorem c6_two_class_scorer (samples : List StreamSample) (hne : samples ≠ []) :
    (voteScores samples).1 ≠ (voteScores samples).2 ∧
    ((voteScores samples).2 < (voteScores samples).1 →
      classifyAudio samples = some ("Music",
        (voteScores samples).1 / ((voteScores samples).1 + (voteScores samples).2) * 100)) ∧
    ((voteScores samples).1 < (voteScores samples).2 →
      classifyAudio samples = some ("Speech",
        (voteScores samples).2 / ((voteScores samples).1 + (voteScores samples).2) * 100)) := by
  have hlen : ¬ samples.length = 0 := by simpa using hne
  rw [classifyAudio_eq samples hlen]
  rcases voteScores_cases samples with h | h | h | h | h | h <;> rw [h] <;> norm_num

/-- Witness for C6: a single sample with spectral centroid 2500 and zero
flatness and zcr gives all five votes to music, label Music, confidence
100. -/
theorem c6_two_class_scorer_witness :
    ([(⟨some 2500, some 0, some 0⟩ : StreamSample)] ≠ ([] : List StreamSample)) ∧
      classifyAudio [⟨some 2500, some 0, some 0⟩] = some ("Music", 100) := by
  have hv : voteScores [(⟨some 2500, some 0, some 0⟩ : StreamSample)] = (5, 0) := by
    norm_num [voteScores]
  refine ⟨by simp, ?_⟩
  have h := (c6_two_class_scorer [⟨some 2500, some 0, some 0⟩] (by simp)).2.1
  rw [hv] at h
  simpa using h (by norm_num)

/-- C10: in the two-class streaming classifier the weighted votes always
total exactly 5, so a tie is impossible and the winning score is at least
3; the two hypotheses' reported confidences sum to 100 percent, and on
every non-empty window the reported confidence is exactly one of 60, 80 or
100 percent — strictly above 50. -/
theorem c10_vote_arithmetic (samples : List StreamSample) (hne : samples ≠ []) :
    (voteScores samples).1 + (voteScores samples).2 = 5 ∧
    (voteScores samples).1 ≠ (voteScores samples).2 ∧
    3 ≤ max (voteScores samples).1 (voteScores samples).2 ∧
    (voteScores samples).1 / ((voteScores samples).1 + (voteScores samples).2) * 100 +
      (voteScores samples).2 / ((voteScores samples).1 + (voteScores samples).2) * 100 = 100 ∧
    ∃ lc : String × ℚ, classifyAudio samples = some lc ∧ 50 < lc.2 ∧
      (lc.2 = 60 ∨ lc.2 = 80 ∨ lc.2 = 100) := by
  have hlen : ¬ samples.length = 0 := by simpa using hne
  rw [classifyAudio_eq samples hlen]
  rcases voteScores_cases samples with h | h | h | h | h | h <;> rw [h] <;> norm_num

/-- Witness for C10 on a concrete one-sample window with every feature
missing. -/
theorem c10_vote_arithmetic_witness :
    ([(⟨none, none, none⟩ : StreamSample)] ≠ ([] : List StreamSample)) ∧
      (voteScores [⟨none, none, none⟩]).1 + (voteScores [⟨none, none, none⟩]).2 = 5 :=
  ⟨by simp, (c10_vote_arithmetic [⟨none, none, none⟩] (by simp)).1⟩

/-- Helper: adding a list to its c-fold pointwise gives its (c+1)-fold. -/
theorem zipWith_add_map_mul (c : ℚ) :
    ∀ v : List ℚ,
      List.zipWith (· + ·) (v.map fun x => c * x) v = v.map fun x => (c + 1) * x := by
  intro v
  induction v with
  | nil => rfl
  | cons a t ih =>
    simp only [List.map_cons, List.zipWith_cons_cons, ih, List.cons.injEq]
    exact ⟨by ring, trivial⟩

/-- Helper: folding the mfcc accumulator over frames that all report the
same vector v, starting from a c-fold of v, yields the (c + n)-fold of v
for n the number of frames. -/
theorem foldl_mfccAccum_const (v : List ℚ) :
    ∀ (l : List MeydaFeatures) (c : ℚ), (∀ f ∈ l, f.mfcc = some v) →
      l.foldl mfccAccum (v.map fun x => c * x)
        = v.map fun x => (c + l.length) * x := by
  intro l
  induction l with
  | nil =>
    intro c _
    simp
  | cons f t ih =>
    intro c h
    rw [List.foldl_cons]
    have hf : f.mfcc = some v := h f (List.mem_cons_self f t)
    have hstep : mfccAccum (v.map fun x => c * x) f = v.map fun x => (c + 1) * x := by
      simp only [mfccAccum, hf]
      exact zipWith_add_map_mul c v
    rw [hstep, ih (c + 1) fun g hg => h g (List.mem_cons_of_mem f hg)]
    apply List.map_congr_left
    intro x _
    simp only [List.length_cons]
    push_cast
    ring

/-- Helper: the 13-slot zero accumulator is the 0-fold of any
13-coefficient vector. -/
theorem replicate_length_zero (v : List ℚ) :
    List.replicate v.length (0 : ℚ) = v.map fun x => 0 * x := by
  induction v with
  | nil => rfl
  | cons a t ih =>
    simp only [List.length_cons, List.replicate_succ, List.map_cons, zero_mul, ih]

/-- Helper: when every frame of a buffer longer than one frame reports the
same 13-coefficient MFCC vector v, the aggregated mfcc of extractFeatures
is v itself. -/
theorem extractFeatures_const_mfcc (meyda : List ℚ → MeydaFeatures)
    (audioBuffer : List ℚ) (sampleRate : ℚ) (v : List ℚ) (hv : v.length = 13)
    (hm : ∀ fr, (meyda fr).mfcc = some v) (hL : 512 < audioBuffer.length) :
    (extractFeatures meyda audioBuffer sampleRate).mfcc = v := by
  have hn : (frameStarts audioBuffer.length 512 256).length ≠ 0 := by
    rw [frameStarts_length audioBuffer.length 512 256 (by omega), if_pos hL]
    omega
  have hnq : ((frameStarts audioBuffer.length 512 256).length : ℚ) ≠ 0 :=
    Nat.cast_ne_zero.mpr hn
  simp only [extractFeatures]
  rw [← hv, replicate_length_zero v,
    foldl_mfccAccum_const v _ 0 (by
      intro f hf
      rcases List.mem_map.mp hf with ⟨i, _, rfl⟩
      exact hm _),
    List.map_map, List.length_map]
  have hfun : ∀ x ∈ v,
      ((fun w => w / ((frameStarts audioBuffer.length 512 256).length : ℚ)) ∘
        fun x => (0 + ((frameStarts audioBuffer.length 512 256).length : ℚ)) * x) x = x := by
    intro x _
    simp only [Function.comp_apply, zero_add]
    rw [mul_comm, mul_div_assoc, div_self hnq, mul_one]
  rw [List.map_congr_left hfun]
  simp

/-- C3 counterexample: a window of two frames that both report the MFCC
vector c3Vec (twelve zeros and one 26). The value the rule classifier uses
is calculateStd of the averaged vector, the square root of 48, while the
standard deviation across the frames of each frame's mean MFCC value is
the standard deviation of the list with two entries 2, which is 0. -/
theorem c3_counterexample :
    calculateStd ((extractFeatures c3Meyda c3Buffer 44100).mfcc)
      ≠ specMfccStdDev c3Meyda c3Buffer := by
  have hvlen : c3Vec.length = 13 := by
    rw [c3Vec, List.length_append, List.length_replicate]
    rfl
  have hblen : c3Buffer.length = 1024 := by
    rw [c3Buffer, List.length_replicate]
  have hmfcc : (extractFeatures c3Meyda c3Buffer 44100).mfcc = c3Vec :=
    extractFeatures_const_mfcc c3Meyda c3Buffer 44100 c3Vec hvlen
      (fun fr => rfl) (by omega)
  have hstarts : frameStarts c3Buffer.length 512 256 = [0, 256] := by
    rw [hblen]
    decide
  have hmean : calculateMean c3Vec = 2 := by
    rw [calculateMean, hvlen, c3Vec]
    norm_num [List.sum_append, List.sum_replicate]
  have hspec : specMfccStdDev c3Meyda c3Buffer = calculateStd [2, 2] := by
    rw [specMfccStdDev, hstarts]
    simp [c3Meyda, hmean]
  have h1 : calculateVariance c3Vec = 48 := by
    rw [calculateVariance, hmean, hvlen, c3Vec]
    norm_num [List.sum_append, List.sum_replicate, List.map_replicate,
      List.map_append]
  have h2 : calculateVariance [2, 2] = 0 := by
    norm_num [calculateVariance, calculateMean]
  rw [hmfcc, hspec, calculateStd, calculateStd, h1, h2]
  rw [show ((48 : ℚ) : ℝ) = 48 by norm_cast, show ((0 : ℚ) : ℝ) = 0 by norm_cast,
    Real.sqrt_zero]
  exact ne_of_gt (Real.sqrt_pos.mpr (by norm_num))

/-- C3 amended: the mfccStdDev statistic used by the rule classifier is the
standard deviation taken across the 13 coefficients of the single
frame-averaged MFCC vector, not across frames: a window whose frames all
report one common MFCC vector v (13 coefficients, at least one full frame
in the buffer) has mfccStdDev equal to calculateStd v — the spread inside
v — independent of the frame count, where the across-frames reading of the
claim would give 0. -/
theorem c3_mfcc_std_across_coefficients (meyda : List ℚ → MeydaFeatures)
    (audioBuffer : List ℚ) (sampleRate : ℚ) (v : List ℚ) (hv : v.length = 13)
    (hm : ∀ fr, (meyda fr).mfcc = some v) (hL : 512 < audioBuffer.length) :
    calculateStd ((extractFeatures meyda audioBuffer sampleRate).mfcc)
      = calculateStd v := by
  rw [extractFeatures_const_mfcc meyda audioBuffer sampleRate v hv hm hL]

/-- Witness for C3 amended at the concrete window c3Meyda / c3Buffer. -/
theorem c3_mfcc_std_across_coefficients_witness :
    c3Vec.length = 13 ∧ 512 < c3Buffer.length ∧
      calculateStd ((extractFeatures c3Meyda c3Buffer 44100).mfcc)
        = calculateStd c3Vec :=
  ⟨by rw [c3Vec, List.length_append, List.length_replicate]; rfl,
    by rw [c3Buffer, List.length_replicate]; omega,
    c3_mfcc_std_across_coefficients c3Meyda c3Buffer 44100 c3Vec
      (by rw [c3Vec, List.length_append, List.length_replicate]; rfl) (fun fr => rfl)
      (by rw [c3Buffer, List.length_replicate]; omega)⟩

/-- Helper: an indexed read with default 0 from an all-zero list is 0. -/
theorem getD_zero_of_all_zero :
    ∀ (l : List ℚ), (∀ x ∈ l, x = 0) → ∀ j : ℕ, l.getD j 0 = 0 := by
  intro l
  induction l with
  | nil => intro _ j; cases j <;> rfl
  | cons a t ih =>
    intro h j
    cases j with
    | zero => exact h a (List.mem_cons_self a t)
    | succ n => exact ih (fun x hx => h x (List.mem_cons_of_mem a hx)) n

/-- Helper: adding an equal-length zero vector to the accumulator leaves it
unchanged. -/
theorem zipWith_add_replicate_zero :
    ∀ acc : List ℚ, List.zipWith (· + ·) acc (List.replicate acc.length 0) = acc := by
  intro acc
  induction acc with
  | nil => rfl
  | cons a t ih =>
    simp only [List.length_cons, List.replicate_succ, List.zipWith_cons_cons,
      add_zero, ih]

/-- Helper: filling missing mfcc vectors with the zero vector does not
change the mfcc accumulation, as long as present vectors have the 13
coefficients the accumulator holds. -/
theorem foldl_mfccAccum_fill :
    ∀ (l : List MeydaFeatures) (acc : List ℚ), acc.length = 13 →
      (∀ f ∈ l, ∀ w, f.mfcc = some w → w.length = 13) →
      (l.map fillMissing).foldl mfccAccum acc = l.foldl mfccAccum acc := by
  intro l
  induction l with
  | nil => intro acc _ _; rfl
  | cons f t ih =>
    intro acc hacc h
    simp only [List.map_cons, List.foldl_cons]
    rcases hmf : f.mfcc with _ | w
    · have hfill : mfccAccum acc (fillMissing f) = acc := by
        simp only [mfccAccum, fillMissing, hmf, Option.getD_none]
        rw [← hacc]
        exact zipWith_add_replicate_zero acc
      have horig : mfccAccum acc f = acc := by
        simp [mfccAccum, hmf]
      rw [hfill, horig]
      exact ih acc hacc fun g hg w hw => h g (List.mem_cons_of_mem f hg) w hw
    · have hw : w.length = 13 := h f (List.mem_cons_self f t) w hmf
      have hfill : mfccAccum acc (fillMissing f) = List.zipWith (· + ·) acc w := by
        simp [mfccAccum, fillMissing, hmf]
      have horig : mfccAccum acc f = List.zipWith (· + ·) acc w := by
        simp [mfccAccum, hmf]
      rw [hfill, horig]
      exact ih _ (by simp [List.length_zipWith, hacc, hw])
        fun g hg w₂ hw₂ => h g (List.mem_cons_of_mem f hg) w₂ hw₂

/-- Helper: or-zero defaulting commutes with filling missing stream-sample
fields, so the three window means of voteScores are unchanged. -/
theorem voteScores_fill (samples : List StreamSample) :
    voteScores (samples.map fillStreamSample) = voteScores samples := by
  have h1 : (samples.map fillStreamSample).map (fun s => s.spectralCentroid.getD 0)
      = samples.map fun s => s.spectralCentroid.getD 0 := by
    rw [List.map_map]
    exact List.map_congr_left fun s _ => by simp [fillStreamSample]
  have h2 : (samples.map fillStreamSample).map (fun s => s.spectralFlatness.getD 0)
      = samples.map fun s => s.spectralFlatness.getD 0 := by
    rw [List.map_map]
    exact List.map_congr_left fun s _ => by simp [fillStreamSample]
  have h3 : (samples.map fillStreamSample).map (fun s => s.zcr.getD 0)
      = samples.map fun s => s.zcr.getD 0 := by
    rw [List.map_map]
    exact List.map_congr_left fun s _ => by simp [fillStreamSample]
  simp only [voteScores, List.length_map, h1, h2, h3]

/-- C8: degraded numeric inputs never surface as errors in the pipeline.
First, on an all-zero input frame the extracted RMS, energy and spectral
flatness all default to 0 (the flatness guard avoids the zero-over-zero
case). Second, in extractFeatures every per-frame feature that is missing
is treated as exactly 0 when averaged into the aggregated statistics: an
oracle whose missing fields are filled with zeros yields identical
aggregates (present mfcc vectors carry the 13 coefficients Meyda
produces). Third, the same holds for the streaming classifier input. -/
theorem c8_degraded_inputs :
    (∀ frame : List ℚ, (∀ x ∈ frame, x = 0) →
      frameRms frame = 0 ∧ frameEnergy frame = 0 ∧ frameFlatness frame = 0) ∧
    (∀ (meyda : List ℚ → MeydaFeatures) (audioBuffer : List ℚ) (sampleRate : ℚ),
      (∀ fr w, (meyda fr).mfcc = some w → w.length = 13) →
      extractFeatures (fun fr => fillMissing (meyda fr)) audioBuffer sampleRate
        = extractFeatures meyda audioBuffer sampleRate) ∧
    (∀ samples : List StreamSample,
      classifyAudio (samples.map fillStreamSample) = classifyAudio samples) := by
  refine ⟨?_, ?_, ?_⟩
  · intro frame h
    have hsq : (frame.map fun x => x * x).sum = 0 := by
      apply List.sum_eq_zero
      intro y hy
      rcases List.mem_map.mp hy with ⟨x, hx, rfl⟩
      rw [h x hx, mul_zero]
    have hmags : ∀ m ∈ frameSpectrum frame, m = 0 := by
      intro m hm
      rw [frameSpectrum] at hm
      rcases List.mem_map.mp hm with ⟨k, _, rfl⟩
      have hz : ((List.range frame.length).map fun j =>
          ((frame.getD j 0 : ℚ) : ℂ) *
            Complex.exp (-2 * (Real.pi : ℂ) * Complex.I * (j : ℂ) * (k : ℂ) /
              (frame.length : ℂ))).sum = 0 := by
        apply List.sum_eq_zero
        intro y hy
        rcases List.mem_map.mp hy with ⟨j, _, rfl⟩
        rw [getD_zero_of_all_zero frame h j]
        simp
      rw [hz]
      simp
    refine ⟨?_, ?_, ?_⟩
    · rw [frameRms, hsq, zero_div]
      simp [Real.sqrt_zero]
    · rw [frameEnergy, hsq]
    · simp only [frameFlatness]
      rw [List.sum_eq_zero hmags, zero_div, if_pos rfl]
  · intro meyda audioBuffer sampleRate h13
    have hfeats : (frameStarts audioBuffer.length 512 256).map
        (fun i => fillMissing (meyda ((audioBuffer.drop i).take 512)))
        = ((frameStarts audioBuffer.length 512 256).map
            fun i => meyda ((audioBuffer.drop i).take 512)).map fillMissing := by
      rw [List.map_map]
      rfl
    have hmem : ∀ f ∈ (frameStarts audioBuffer.length 512 256).map
        (fun i => meyda ((audioBuffer.drop i).take 512)),
        ∀ w, f.mfcc = some w → w.length = 13 := by
      intro f hf w hw
      rcases List.mem_map.mp hf with ⟨i, _, rfl⟩
      exact h13 _ w hw
    have hrms : (((frameStarts audioBuffer.length 512 256).map
          fun i => meyda ((audioBuffer.drop i).take 512)).map fillMissing).map
            (fun f => f.rms.getD 0)
        = ((frameStarts audioBuffer.length 512 256).map
            fun i => meyda ((audioBuffer.drop i).take 512)).map
              fun f => f.rms.getD 0 := by
      rw [List.map_map]
      exact List.map_congr_left fun f _ => by simp [fillMissing]
    have hsc : (((frameStarts audioBuffer.length 512 256).map
          fun i => meyda ((audioBuffer.drop i).take 512)).map fillMissing).map
            (fun f => f.spectralCentroid.getD 0)
        = ((frameStarts audioBuffer.length 512 256).map
            fun i => meyda ((audioBuffer.drop i).take 512)).map
              fun f => f.spectralCentroid.getD 0 := by
      rw [List.map_map]
      exact List.map_congr_left fun f _ => by simp [fillMissing]
    have hzcr : (((frameStarts audioBuffer.length 512 256).map
          fun i => meyda ((audioBuffer.drop i).take 512)).map fillMissing).map
            (fun f => f.zcr.getD 0)
        = ((frameStarts audioBuffer.length 512 256).map
            fun i => meyda ((audioBuffer.drop i).take 512)).map
              fun f => f.zcr.getD 0 := by
      rw [List.map_map]
      exact List.map_congr_left fun f _ => by simp [fillMissing]
    have hfold := foldl_mfccAccum_fill
      ((frameStarts audioBuffer.length 512 256).map
        fun i => meyda ((audioBuffer.drop i).take 512))
      (List.replicate 13 0) (List.length_replicate 13 0) hmem
    simp only [extractFeatures, hfeats, hrms, hsc, hzcr, hfold, List.length_map]
  · intro samples
    simp only [classifyAudio, List.length_map, voteScores_fill]

/-- Witness for C8 on a concrete all-zero 4-sample frame, an oracle with
every field missing on the empty buffer, and the empty streaming window. -/
theorem c8_degraded_inputs_witness :
    (∀ x ∈ List.replicate 4 (0 : ℚ), x = 0) ∧
      frameRms (List.replicate 4 0) = 0 ∧ frameEnergy (List.replicate 4 0) = 0 ∧
      frameFlatness (List.replicate 4 0) = 0 :=
  ⟨fun _ hx => List.eq_of_mem_replicate hx,
    c8_degraded_inputs.1 (List.replicate 4 0) fun _ hx => List.eq_of_mem_replicate hx⟩
